import Mathlib

/-!
Verification development for the agent registry, capability scoring and
AWS pricing agent of the `bedrock-chat-ui` repository.

The Python sources are shallowly embedded:
  * `src/agents/agent_registry.py` : capability scoring
    (`BaseSpecializedAgent.get_confidence_score`) and agent selection
    (`AgentRegistry.find_best_agent`).
  * `src/agents/aws_pricing_agent.py` : the pricing agent
    (`AWSPricingAgent.process_pricing_query`) with its conversation-context
    management, architecture/cost extraction and caching.

Python floats are modelled as exact rationals; `hash(s)` used as a cache key is
modelled by the normalized string `s` itself (hash collisions are not
modelled); `time.time()` values are supplied by the environment.  The two
external collaborators (the Bedrock model invocation and the MCP tool
pipeline) are modelled as oracle inputs of the environment, exactly at the
boundaries where the source observes them (success / raised exception).

Core rational arithmetic (`Rat.add`, `Rat.mul`, division) is irreducible in
this toolchain, so the embedding computes with `mkRat`-based wrappers
(`qAdd`, `qMul`) that are proved equal to the ordinary operations below.
Strings are manipulated through their underlying character lists so that
every definition evaluates inside `decide`.
-/

/-- Sum and product wrappers on rationals that reduce in the kernel.
`qAdd a b = a + b` is proved below. -/
def qAdd (a b : ℚ) : ℚ :=
  mkRat (a.num * (b.den : ℤ) + b.num * (a.den : ℤ)) (a.den * b.den)

/-- Kernel-computable product on rationals; `qMul a b = a * b` is proved below. -/
def qMul (a b : ℚ) : ℚ :=
  mkRat (a.num * b.num) (a.den * b.den)

/-- ASCII lower-casing of a character, as done by `str.lower()` on the
ASCII texts this code handles. -/
def lowChar (c : Char) : Char :=
  if 'A' ≤ c ∧ c ≤ 'Z' then Char.ofNat (c.toNat + 32) else c

/-- Lower-casing of a string (Python `str.lower()`), via the character list
so that it evaluates in the kernel. -/
def lowerString (s : String) : String :=
  String.mk (s.data.map lowChar)

/-- Python `str.strip()`: drop leading and trailing whitespace. -/
def trimString (s : String) : String :=
  String.mk (((s.data.dropWhile Char.isWhitespace).reverse.dropWhile
    Char.isWhitespace).reverse)

/-- Does the character list `n` occur at the start of `h`? -/
def listStartsWith : List Char → List Char → Bool
  | [], _ => true
  | _ :: _, [] => false
  | a :: as, b :: bs => a = b && listStartsWith as bs

/-- Python substring test `needle in haystack`. -/
def strContains (haystack needle : String) : Bool :=
  (List.range (haystack.data.length + 1)).any
    (fun i => listStartsWith needle.data (haystack.data.drop i))

/-- Python `str.startswith`. -/
def strStartsWith (s p : String) : Bool :=
  listStartsWith p.data s.data

/-- Python `sep.join(parts)`. -/
def joinSep (sep : String) : List String → String
  | [] => ""
  | [x] => x
  | x :: xs => x ++ sep ++ joinSep sep xs

/-- Python slicing `s[:n]` (by characters). -/
def takeChars (n : Nat) (s : String) : String :=
  String.mk (s.data.take n)

/-- Keep the last `n` elements of a list (Python `l[-n:]` for `n ≥ 1`). -/
def lastN {α : Type} (n : Nat) (l : List α) : List α :=
  l.drop (l.length - n)

/-!  ## agent_registry.py : capability model and confidence scoring  -/

/-- `AgentCapability` from `agent_registry.py` (lines 19-27).  The fields
`name` and `description` are carried but never inspected by the scoring
code. -/
structure AgentCapability where
  name : String := ""
  description : String := ""
  keywords : List String := []
  phrases : List String := []
  priority : ℤ := 1
  confidence_threshold : ℚ := mkRat 1 2
deriving DecidableEq

/-- The body of the `for capability in capabilities` loop of
`BaseSpecializedAgent.get_confidence_score` (agent_registry.py lines 77-108):
the score contributed by one capability for the already lower-cased query.
Constants: 0.4 = 2/5, 0.5 = 1/2, 0.9 = 9/10, 0.05 = 1/20, 0.6 = 3/5. -/
def capabilityScore (query_lower : String) (cap : AgentCapability) : ℚ :=
  let keyword_matches : ℕ :=
    (cap.keywords.filter (fun k => strContains query_lower k)).length
  let score0 : ℚ :=
    if cap.keywords ≠ [] ∧ 0 < keyword_matches then
      let keywordFrac : ℚ := min (mkRat keyword_matches cap.keywords.length) 1
      qAdd (mkRat 2 5) (qMul keywordFrac (mkRat 2 5))
    else 0
  let phrase_matches : ℕ :=
    (cap.phrases.filter (fun p => strContains query_lower p)).length
  let score1 : ℚ :=
    if cap.phrases ≠ [] ∧ 0 < phrase_matches then
      qAdd score0 (min (qMul (mkRat phrase_matches 1) (mkRat 1 2)) (mkRat 9 10))
    else score0
  if 0 < score1 then
    let score2 : ℚ := qAdd score1 (max (mkRat (cap.priority - 5) 20) 0)
    let score3 : ℚ := qMul score2 (mkRat cap.priority 10)
    if 0 < keyword_matches ∨ 0 < phrase_matches then max score3 (mkRat 3 5)
    else score3
  else score1

/-- `BaseSpecializedAgent.get_confidence_score` (agent_registry.py lines
71-110): the maximum capability score, clamped by `min(max_score, 1.0)`. -/
def get_confidence_score (capabilities : List AgentCapability)
    (query : String) : ℚ :=
  let query_lower := lowerString query
  let max_score :=
    capabilities.foldl (fun m cap => max m (capabilityScore query_lower cap)) 0
  min max_score 1

/-!  ## agent_registry.py : registry entries and find_best_agent  -/

/-- One entry of the registry as seen by `AgentRegistry.find_best_agent`:
the agent id (a key of `self.agent_metadata`), the capability list of its
metadata (which for both built-in registration paths equals the instance
capability list used by `get_confidence_score`), the `enabled` flag, and
whether `self.get_agent(agent_id)` yields an instance (`instantiable = false`
models a construction failure, in which case the loop continues). -/
structure RegisteredAgent where
  id : String
  capabilities : List AgentCapability
  enabled : Bool := true
  instantiable : Bool := true

/-- Python `min(cap.confidence_threshold for cap in caps)` on a nonempty
list presented as head and tail. -/
def minThresholdAux (c : AgentCapability) (cs : List AgentCapability) : ℚ :=
  cs.foldl (fun m x => min m x.confidence_threshold) c.confidence_threshold

/-- Python `max(cap.priority for cap in caps)` on a nonempty list. -/
def maxPriorityAux (c : AgentCapability) (cs : List AgentCapability) : ℤ :=
  cs.foldl (fun m x => max m x.priority) c.priority

/-- `min` of the confidence thresholds of a capability list (0 on `[]`;
`find_best_agent` never reaches the empty case because the `ValueError`
raised by Python `min(())` is caught and the agent skipped). -/
def minThreshold : List AgentCapability → ℚ
  | [] => 0
  | c :: cs => minThresholdAux c cs

/-- `max` of the priorities of a capability list (0 on `[]`). -/
def maxPriority : List AgentCapability → ℤ
  | [] => 0
  | c :: cs => maxPriorityAux c cs

/-- The weighted score `confidence * (max_priority / 10.0)` computed by
`find_best_agent` (agent_registry.py lines 228-229). -/
def weightedScore (query : String) (a : RegisteredAgent) : ℚ :=
  qMul (get_confidence_score a.capabilities query) (mkRat (maxPriority a.capabilities) 10)

/-- The agents `find_best_agent` actually scores: not excluded, enabled,
`get_agent` succeeds, the `min()` over its capabilities does not raise
(capability list nonempty), and the confidence clears the minimum
threshold (agent_registry.py lines 211-224). -/
def eligibleAgent (query : String) (exclude_agents : List String)
    (a : RegisteredAgent) : Prop :=
  a.id ∉ exclude_agents ∧ a.enabled = true ∧ a.instantiable = true ∧
    a.capabilities ≠ [] ∧
    minThreshold a.capabilities ≤ get_confidence_score a.capabilities query

instance (query : String) (exclude_agents : List String) (a : RegisteredAgent) :
    Decidable (eligibleAgent query exclude_agents a) := by
  unfold eligibleAgent; infer_instance

/-- The `for agent_id, metadata in self.agent_metadata.items()` loop of
`AgentRegistry.find_best_agent` (agent_registry.py lines 205-242), with the
running `best_agent` / `best_score` accumulator made explicit.  Each
`continue` of the source (exclusion, disabled, construction failure, the
caught exception for an empty capability list, a below-threshold
confidence) is a recursive call that leaves the accumulator unchanged. -/
def findBestLoop (query : String) (exclude_agents : List String) :
    List RegisteredAgent → Option String → ℚ → Option String
  | [], best_agent, _ => best_agent
  | a :: rest, best_agent, best_score =>
    if a.id ∈ exclude_agents ∨ a.enabled = false then
      findBestLoop query exclude_agents rest best_agent best_score
    else if a.instantiable = false then
      findBestLoop query exclude_agents rest best_agent best_score
    else
      match a.capabilities with
      | [] => findBestLoop query exclude_agents rest best_agent best_score
      | c :: cs =>
        let confidence := get_confidence_score a.capabilities query
        let min_confidence := minThresholdAux c cs
        if confidence < min_confidence then
          findBestLoop query exclude_agents rest best_agent best_score
        else
          let max_priority := maxPriorityAux c cs
          let weighted_score := qMul confidence (mkRat max_priority 10)
          if best_score < weighted_score then
            findBestLoop query exclude_agents rest (some a.id) weighted_score
          else
            findBestLoop query exclude_agents rest best_agent best_score

/-- `AgentRegistry.find_best_agent(query, exclude_agents)`: the registry is
the list of `(agent_id, metadata)` items in registration (dict insertion)
order; `best_agent` starts as `None` and `best_score` as `0.0`. -/
def find_best_agent (registry : List RegisteredAgent) (query : String)
    (exclude_agents : List String) : Option String :=
  findBestLoop query exclude_agents registry none 0

/-!  ## aws_pricing_agent.py : extraction helpers

The regular expressions of `_extract_architecture_info` and
`_extract_cost_estimates` are embedded as direct character-list scanners.
Each implements `re.findall` semantics for its pattern: scan left to right,
try the alternation branches in order at each position, on success emit the
group and continue after the match, on failure advance one character.  The
character classes of these patterns never overlap the literal that follows
them, so greedy maximal munch coincides with backtracking semantics. -/

def isLowerAlpha (c : Char) : Bool := 'a' ≤ c && c ≤ 'z'

def isDigitCh (c : Char) : Bool := '0' ≤ c && c ≤ '9'

def isLowerAlphaNum (c : Char) : Bool := isLowerAlpha c || isDigitCh c

/-- Case-insensitive test that `lit` (given lower-case) starts `l`. -/
def startsWithCI (lit : List Char) (l : List Char) : Bool :=
  listStartsWith lit (l.map lowChar)

/-- One branch `X[lo-hi]\.[a-z]+` of the instance-type pattern
(aws_pricing_agent.py line 1084), returning the match and the rest. -/
def matchSimpleInstance (first lo hi : Char) :
    List Char → Option (List Char × List Char)
  | c :: d :: '.' :: rest =>
    if c = first ∧ lo ≤ d ∧ d ≤ hi then
      let letters := rest.takeWhile isLowerAlpha
      if letters = [] then none
      else some (c :: d :: '.' :: letters, rest.drop letters.length)
    else none
  | _ => none

/-- The branch `db\.[a-z0-9]+\.[a-z]+` of the instance-type pattern. -/
def matchDbInstance : List Char → Option (List Char × List Char)
  | 'd' :: 'b' :: '.' :: rest =>
    let run1 := rest.takeWhile isLowerAlphaNum
    if run1 = [] then none
    else
      match rest.drop run1.length with
      | '.' :: rest2 =>
        let run2 := rest2.takeWhile isLowerAlpha
        if run2 = [] then none
        else some ('d' :: 'b' :: '.' :: run1 ++ '.' :: run2,
          rest2.drop run2.length)
      | _ => none
  | _ => none

/-- The full alternation
`(t[2-4]\.[a-z]+|m[4-6]\.[a-z]+|c[4-6]\.[a-z]+|r[4-6]\.[a-z]+|db\.[a-z0-9]+\.[a-z]+)`
tried in order at one position. -/
def matchInstanceAt (l : List Char) : Option (List Char × List Char) :=
  match matchSimpleInstance 't' '2' '4' l with
  | some r => some r
  | none =>
  match matchSimpleInstance 'm' '4' '6' l with
  | some r => some r
  | none =>
  match matchSimpleInstance 'c' '4' '6' l with
  | some r => some r
  | none =>
  match matchSimpleInstance 'r' '4' '6' l with
  | some r => some r
  | none => matchDbInstance l

/-- One branch `pp-[a-z]+-[0-9]+` of the region pattern
(aws_pricing_agent.py line 1090), for a two-letter prefix `p1 p2`. -/
def matchRegionPrefix (p1 p2 : Char) :
    List Char → Option (List Char × List Char)
  | a :: b :: '-' :: rest =>
    if a = p1 ∧ b = p2 then
      let letters := rest.takeWhile isLowerAlpha
      if letters = [] then none
      else
        match rest.drop letters.length with
        | '-' :: rest2 =>
          let digits := rest2.takeWhile isDigitCh
          if digits = [] then none
          else some (a :: b :: '-' :: letters ++ '-' :: digits,
            rest2.drop digits.length)
        | _ => none
    else none
  | _ => none

/-- The region alternation `(us-…|eu-…|ap-…|ca-…|sa-…)` tried in order. -/
def matchRegionAt (l : List Char) : Option (List Char × List Char) :=
  match matchRegionPrefix 'u' 's' l with
  | some r => some r
  | none =>
  match matchRegionPrefix 'e' 'u' l with
  | some r => some r
  | none =>
  match matchRegionPrefix 'a' 'p' l with
  | some r => some r
  | none =>
  match matchRegionPrefix 'c' 'a' l with
  | some r => some r
  | none => matchRegionPrefix 's' 'a' l

/-- `re.findall` driver: apply `matcher` at each position, collect matches,
continue after each match, advance one character on failure.  The fuel is
the length of the scanned text; every successful match consumes at least
one character, so the fuel never runs out on the initial call. -/
def scanAll (matcher : List Char → Option (List Char × List Char)) :
    Nat → List Char → List (List Char)
  | 0, _ => []
  | _ + 1, [] => []
  | fuel + 1, l =>
    match matcher l with
    | some (tok, rest) => tok :: scanAll matcher fuel rest
    | none => scanAll matcher fuel l.tail

/-- Python `list(set(...))`: deduplication (the arbitrary set iteration
order is modelled as first-occurrence order). -/
def dedupFirst (l : List String) : List String :=
  l.foldl (fun acc x => if x ∈ acc then acc else acc ++ [x]) []

/-- First match of the usage pattern `(\d+)\s*LIT…` where `lits` are the
allowed literals after optional whitespace (`users?` is represented by its
mandatory part `user`, matching the optional `s?` semantics): returns the
digit group of the first match, scanning left to right. -/
def firstUsageMatch (lits : List (List Char)) :
    Nat → List Char → Option (List Char)
  | 0, _ => none
  | _ + 1, [] => none
  | fuel + 1, l =>
    let digits := l.takeWhile isDigitCh
    if digits ≠ [] ∧
        (lits.any fun lit =>
          startsWithCI lit ((l.drop digits.length).dropWhile Char.isWhitespace))
      then some digits
    else firstUsageMatch lits fuel l.tail

/-!  ### money parsing (`_extract_cost_estimates`) -/

def digitVal (c : Char) : Nat := c.toNat - '0'.toNat

def digitsToNat (l : List Char) : Nat :=
  l.foldl (fun n c => 10 * n + digitVal c) 0

/-- Python `float(group.replace(',', ''))` for a group matched by
`[0-9,]+\.?[0-9]*`: strip commas, split at the optional dot, value =
integer part + fractional part.  Returns `none` when no digit remains
(the `ValueError` branch of the source, which leaves the total unset). -/
def parseMoney (g : List Char) : Option ℚ :=
  let g' := g.filter (fun c => c ≠ ',')
  if g'.any isDigitCh then
    let intPart := g'.takeWhile isDigitCh
    let rest := g'.drop intPart.length
    let fracPart := rest.drop 1
    some (qAdd (mkRat (digitsToNat intPart) 1)
      (mkRat (digitsToNat fracPart) (10 ^ fracPart.length)))
  else none

/-- Matcher for `\$([0-9,]+\.?[0-9]*)\s*(?:per\s+)?LIT` (IGNORECASE) at one
position, where `lit` is `month` or `year`: returns the number group and
the rest after the literal. -/
def matchMoneyAt (lit : List Char) : List Char → Option (List Char × List Char)
  | '$' :: rest =>
    let run1 := rest.takeWhile (fun c => isDigitCh c || c = ',')
    if run1 = [] then none
    else
      let afterRun1 := rest.drop run1.length
      let (group, afterNum) :=
        match afterRun1 with
        | '.' :: r2 =>
          let run2 := r2.takeWhile isDigitCh
          (run1 ++ '.' :: run2, r2.drop run2.length)
        | _ => (run1, afterRun1)
      let afterWs := afterNum.dropWhile Char.isWhitespace
      let afterPer :=
        if startsWithCI ['p', 'e', 'r'] afterWs ∧
            (afterWs.drop 3).takeWhile Char.isWhitespace ≠ [] then
          (afterWs.drop 3).dropWhile Char.isWhitespace
        else afterWs
      if startsWithCI lit afterPer then some (group, afterPer.drop lit.length)
      else none
  | _ => none

/-- All groups of `re.findall` for the monthly/annual cost pattern. -/
def findMoney (lit : List Char) (text : List Char) : List (List Char) :=
  scanAll (matchMoneyAt lit) text.length text

/-- The service alternation `(EC2|RDS|S3|Lambda|ELB|ALB|NLB)` (IGNORECASE)
tried in order at one position; returns the service name (canonical form)
and the rest. -/
def matchServiceName (l : List Char) : Option (String × List Char) :=
  if startsWithCI ['e', 'c', '2'] l then some ("EC2", l.drop 3)
  else if startsWithCI ['r', 'd', 's'] l then some ("RDS", l.drop 3)
  else if startsWithCI ['s', '3'] l then some ("S3", l.drop 2)
  else if startsWithCI ['l', 'a', 'm', 'b', 'd', 'a'] l then some ("Lambda", l.drop 6)
  else if startsWithCI ['e', 'l', 'b'] l then some ("ELB", l.drop 3)
  else if startsWithCI ['a', 'l', 'b'] l then some ("ALB", l.drop 3)
  else if startsWithCI ['n', 'l', 'b'] l then some ("NLB", l.drop 3)
  else none

/-- The lazy part `.*?\$([0-9,]+\.?[0-9]*)` after a service name: find the
nearest following `\$number` without crossing a newline (`.` does not match
`\n`); returns the number group and the rest after it. -/
def lazyDollarAfter : Nat → List Char → Option (List Char × List Char)
  | 0, _ => none
  | _ + 1, [] => none
  | fuel + 1, '$' :: rest =>
    let run1 := rest.takeWhile (fun c => isDigitCh c || c = ',')
    if run1 = [] then lazyDollarAfter fuel rest
    else
      let afterRun1 := rest.drop run1.length
      match afterRun1 with
      | '.' :: r2 =>
        let run2 := r2.takeWhile isDigitCh
        some (run1 ++ '.' :: run2, r2.drop run2.length)
      | _ => some (run1, afterRun1)
  | _ + 1, '\n' :: _ => none
  | fuel + 1, _ :: rest => lazyDollarAfter fuel rest

/-- `re.findall` for the per-service pattern
`(EC2|RDS|S3|Lambda|ELB|ALB|NLB).*?\$([0-9,]+\.?[0-9]*)` (IGNORECASE),
returning (service, number group) pairs in match order. -/
def findServiceCosts : Nat → List Char → List (String × List Char)
  | 0, _ => []
  | _ + 1, [] => []
  | fuel + 1, l =>
    match matchServiceName l with
    | some (svc, rest) =>
      match lazyDollarAfter rest.length rest with
      | some (group, rest2) => (svc, group) :: findServiceCosts fuel rest2
      | none => findServiceCosts fuel l.tail
    | none => findServiceCosts fuel l.tail

/-!  ## aws_pricing_agent.py : data model -/

/-- Python `.upper()` for the ASCII service names. -/
def upChar (c : Char) : Char :=
  if 'a' ≤ c ∧ c ≤ 'z' then Char.ofNat (c.toNat - 32) else c

def upperString (s : String) : String :=
  String.mk (s.data.map upChar)

/-- Floor of a rational (`Int.fdiv` of numerator by the positive
denominator). -/
def qfloor (q : ℚ) : ℤ :=
  Int.fdiv q.num q.den

/-- Python float formatting `"{x:.0f}"`: round to the nearest integer
(half up; the half-even behaviour of binary floats on exact halves is not
modelled — no claim depends on the rendered digits). -/
def money0 (q : ℚ) : String :=
  toString (qfloor (qAdd q (mkRat 1 2)))

def pad2 (n : ℤ) : String :=
  if n < 10 then "0" ++ toString n else toString n

/-- Python float formatting `"{x:.2f}"` for the nonnegative cost values. -/
def money2 (q : ℚ) : String :=
  let c : ℤ := qfloor (qAdd (qMul q (mkRat 100 1)) (mkRat 1 2))
  toString (Int.fdiv c 100) ++ "." ++ pad2 (Int.emod c 100)

/-- `str(time.time())` stand-in for a rational timestamp (the rendered
value is never inspected by the code). -/
def qToStr (q : ℚ) : String :=
  toString q.num ++ "/" ++ toString q.den

/-- The result of `_extract_architecture_info` (aws_pricing_agent.py lines
1063-1108).  `instance_types` models `configurations['instance_types']`,
the only key the source ever puts into `configurations`; the empty list
models an absent key, matching every truthiness test performed on it. -/
structure ArchitectureInfo where
  services : List String := []
  instance_types : List String := []
  regions : List String := []
  usage_patterns : List (String × String) := []
deriving DecidableEq

/-- `self.current_architecture` (same field conventions as
`ArchitectureInfo`, plus the `last_updated` timestamp). -/
structure Architecture where
  services : List String := []
  instance_types : List String := []
  regions : List String := []
  usage_patterns : List (String × String) := []
  last_updated : ℚ := 0
deriving DecidableEq

/-- The result of `_extract_cost_estimates` (lines 1127-1167); also the
shape of `self.baseline_costs`.  `none` totals model Python `None`, and an
assoc list models the `service_breakdown` dict in insertion order. -/
structure CostInfo where
  monthly_total : Option ℚ := none
  annual_total : Option ℚ := none
  service_breakdown : List (String × ℚ) := []
  currency : String := "USD"
deriving DecidableEq

/-- Python numeric truthiness `if x:` for an optional float: false for
`None` and for `0.0`. -/
def optTruthy (o : Option ℚ) : Bool :=
  match o with
  | none => false
  | some q => q ≠ 0

/-- One entry of `self.conversation_context` (lines 1270-1277). -/
structure ContextEntry where
  query : String
  response : String
  timestamp : ℚ := 0
  architecture_info : ArchitectureInfo := {}
  query_type : String := "general"
  cost_estimates : CostInfo := {}
deriving DecidableEq

/-- One entry of `self.scenario_history` (lines 1248-1256). -/
structure Scenario where
  query : String
  response_summary : String
  cost_info : CostInfo
  timestamp : ℚ
  architecture_snapshot : Architecture
deriving DecidableEq

/-- `self.performance_stats` (lines 88-93). -/
structure PerfStats where
  total_queries : ℕ := 0
  cache_hits : ℕ := 0
  mcp_calls : ℕ := 0
  avg_response_time : ℚ := 0
deriving DecidableEq

/-- A raised Python exception, as observed by the handlers:
`type(e).__name__` and `str(e)`. -/
structure PyExc where
  ename : String := "Exception"
  emsg : String := ""
deriving DecidableEq

/-- The dict returned by `_handle_mcp_error_enhanced` (lines 216-281). -/
structure ErrorInfo where
  operation : String
  error_type : String
  error_message : String
  mcp_status : String := "unavailable"
  fallback_used : Bool := true
  optimization_suggestions : List String := []
  troubleshooting : List String := []
deriving DecidableEq

/-- The dict returned by `process_pricing_query`.  A single record models
both the success and the error dict; fields absent from the error dict
(`cached`, `timestamp`, `context_length`, `current_architecture`,
`baseline_costs`, `scenarios_tracked`) take their defaults there, and
`error` / `troubleshooting` are `none` on success. -/
structure PricingResult where
  status : String
  response : String
  agent_type : String
  mcp_available : Bool
  response_time : ℚ := 0
  performance_stats : PerfStats
  cached : Bool := false
  timestamp : String := ""
  confidence : String
  context_length : ℕ := 0
  current_architecture : Architecture := {}
  baseline_costs : CostInfo := {}
  scenarios_tracked : ℕ := 0
  error : Option String := none
  troubleshooting : Option ErrorInfo := none
deriving DecidableEq

/-- The mutable per-instance state of `AWSPricingAgent` (lines 79-100).
`mcpClientPresent` models `self.mcp_client is not None` (fixed after
construction); `mcp_error_reason` models the optional attribute consulted
by `_handle_mcp_error_enhanced`.  The query cache is an assoc list in
insertion order, keyed by the normalized query text standing in for
`hash(query.lower().strip())`. -/
structure AgentState where
  mcpClientPresent : Bool := true
  mcp_error_reason : Option String := none
  query_cache : List (String × PricingResult) := []
  performance_stats : PerfStats := {}
  conversation_context : List ContextEntry := []
  max_context_length : ℕ := 8000
  current_architecture : Architecture := {}
  baseline_costs : CostInfo := {}
  scenario_history : List Scenario := []
deriving DecidableEq

/-- Outcome of the tier-1 (MCP multi-agent) pipeline, as distinguished by
the `except` handler at lines 1774-1805: full success (a formatted
response), a downstream failure after `tool_response` was obtained (the
raw-data path at lines 1780-1792), or a failure with `tool_response` still
`None` (lines 1794-1805, leading to the knowledge-base fallback). -/
inductive Tier1Outcome where
  | success (response : String)
  | partialData (tool_response : String)
  | failure (e : PyExc)

/-- Per-call environment: the oracle outcomes of the external
collaborators and the wall-clock values read during the call.  `fallback`
is the Bedrock model invocation of the no-tools fallback agent, applied to
the context-enriched query; `.error` models a raised exception. -/
structure CallEnv where
  tier1 : Tier1Outcome
  fallback : String → Except PyExc String
  now : ℚ := 0
  response_time : ℚ := 0

/-- Python dict lookup on the modelled cache. -/
def lookupCache (l : List (String × PricingResult)) (k : String) :
    Option PricingResult :=
  (l.find? (fun p => p.1 = k)).map (fun p => p.2)

/-- Assoc-list analogue of a Python dict update of one key: replace the
value in place if the key exists, append otherwise. -/
def upsertAssoc {α : Type} (l : List (String × α)) (k : String) (v : α) :
    List (String × α) :=
  if l.any (fun p => p.1 = k) then
    l.map (fun p => if p.1 = k then (k, v) else p)
  else l ++ [(k, v)]

/-!  ## aws_pricing_agent.py : extraction, classification, context -/

/-- The fixed service vocabulary of `_extract_architecture_info`
(lines 1073-1074). -/
def aws_services_list : List String :=
  ["ec2", "rds", "s3", "lambda", "eks", "ecs", "elb", "alb", "nlb",
   "cloudfront", "route53", "dynamodb", "redshift", "emr", "sqs", "sns"]

/-- The four usage patterns of `_extract_architecture_info`
(lines 1096-1101), as (key, allowed literals after the digits). -/
def usage_keywords : List (String × List (List Char)) :=
  [("users", [['u', 's', 'e', 'r']]),
   ("requests", [['r', 'e', 'q', 'u', 'e', 's', 't']]),
   ("storage", [['g', 'b'], ['t', 'b'], ['p', 'b']]),
   ("bandwidth", [['m', 'b', 'p', 's'], ['g', 'b', 'p', 's']])]

/-- `AWSPricingAgent._extract_architecture_info(query, response)`
(lines 1063-1108). -/
def extract_architecture_info (query response : String) : ArchitectureInfo :=
  let combined_text := lowerString (query ++ " " ++ response)
  let services :=
    (aws_services_list.filter (fun s => strContains combined_text s)).map upperString
  let chars := combined_text.data
  let instances :=
    dedupFirst ((scanAll matchInstanceAt chars.length chars).map String.mk)
  let regions :=
    dedupFirst ((scanAll matchRegionAt chars.length chars).map String.mk)
  let usage := usage_keywords.foldl
    (fun acc kw =>
      match firstUsageMatch kw.2 chars.length chars with
      | some digits => acc ++ [(kw.1, String.mk digits)]
      | none => acc) []
  { services := services, instance_types := instances, regions := regions,
    usage_patterns := usage }

/-- `AWSPricingAgent._classify_query_type(query)` (lines 1110-1125). -/
def classify_query_type (query : String) : String :=
  let ql := lowerString query
  if ["compare", "comparison", "vs", "versus", "difference"].any
      (fun w => strContains ql w) then "comparison"
  else if ["optimize", "reduce", "save", "cheaper", "alternative"].any
      (fun w => strContains ql w) then "optimization"
  else if ["what if", "scenario", "instead", "change"].any
      (fun w => strContains ql w) then "scenario"
  else if ["add", "include", "also", "additionally"].any
      (fun w => strContains ql w) then "modification"
  else if ["cost", "price", "estimate", "budget"].any
      (fun w => strContains ql w) then "pricing"
  else "general"

/-- `AWSPricingAgent._is_comparison_query(query)` (lines 1243-1246). -/
def is_comparison_query (query : String) : Bool :=
  ["compare", "comparison", "vs", "versus", "difference", "what if",
   "scenario", "alternative"].any (fun w => strContains (lowerString query) w)

/-- `AWSPricingAgent._extract_cost_estimates(response)` (lines 1127-1167):
last-match semantics for the totals, dict insertion for the per-service
breakdown, parse failures skipped. -/
def extract_cost_estimates (response : String) : CostInfo :=
  let text := response.data
  let monthly :=
    match (findMoney ['m', 'o', 'n', 't', 'h'] text).getLast? with
    | some g => parseMoney g
    | none => none
  let annual :=
    match (findMoney ['y', 'e', 'a', 'r'] text).getLast? with
    | some g => parseMoney g
    | none => none
  let breakdown := (findServiceCosts text.length text).foldl
    (fun acc sg =>
      match parseMoney sg.2 with
      | some v => upsertAssoc acc sg.1 v
      | none => acc) []
  { monthly_total := monthly, annual_total := annual,
    service_breakdown := breakdown, currency := "USD" }

/-- `AWSPricingAgent._update_architecture_state(architecture_info)`
(lines 1169-1194): services are unioned, `configurations` and
`usage_patterns` are merged per key with overwrite, `regions` are
replaced, `last_updated` is set. -/
def update_architecture_state (arch : Architecture)
    (info : ArchitectureInfo) (now : ℚ) : Architecture :=
  let arch1 :=
    if info.services ≠ [] then
      { arch with services :=
          arch.services ++ info.services.filter (fun s => s ∉ arch.services) }
    else arch
  let arch2 :=
    if info.instance_types ≠ [] then
      { arch1 with instance_types := info.instance_types }
    else arch1
  let arch3 :=
    if info.regions ≠ [] then { arch2 with regions := info.regions } else arch2
  let mergedUsage :=
    info.usage_patterns.foldl (fun l kv => upsertAssoc l kv.1 kv.2)
      arch3.usage_patterns
  let arch4 :=
    if info.usage_patterns ≠ [] then
      { arch3 with usage_patterns := mergedUsage }
    else arch3
  { arch4 with last_updated := now }

/-- `AWSPricingAgent._format_architecture_summary()` (lines 1196-1222).
The `if not self.current_architecture: return ""` short-circuit of the
source is behaviourally identical to running the formatter on the empty
record (all parts are skipped and the join is `""`). -/
def format_architecture_summary (arch : Architecture) : String :=
  let parts : List String :=
    (if arch.services ≠ [] then
      ["Services: " ++ joinSep ", " arch.services] else []) ++
    (if arch.instance_types ≠ [] then
      ["Instances: " ++ joinSep ", " arch.instance_types] else []) ++
    (if arch.regions ≠ [] then
      ["Regions: " ++ joinSep ", " arch.regions] else []) ++
    (if arch.usage_patterns ≠ [] then
      ["Usage: " ++ joinSep ", "
        (arch.usage_patterns.map (fun kv => kv.1 ++ ": " ++ kv.2))] else [])
  joinSep "; " parts

/-- `AWSPricingAgent._format_baseline_costs()` (lines 1224-1241), with the
same remark about the empty-dict short-circuit. -/
def format_baseline_costs (costs : CostInfo) : String :=
  let parts : List String :=
    (if optTruthy costs.monthly_total then
      ["Monthly: $" ++ money2 (costs.monthly_total.getD 0)] else []) ++
    (if costs.service_breakdown ≠ [] then
      ["Breakdown: " ++ joinSep ", "
        (costs.service_breakdown.map (fun kv => kv.1 ++ ": $" ++ money2 kv.2))]
     else [])
  joinSep "; " parts

/-- The per-entry step of the summarization loop of
`_summarize_conversation_context` (lines 1307-1328), threading the three
accumulators (summary_items, architecture_evolution, cost_evolution). -/
def summarizeStep (acc : List String × List String × List String)
    (item : ContextEntry) : List String × List String × List String :=
  let sitems := acc.1
  let aevo := acc.2.1
  let cevo := acc.2.2
  if item.query_type = "pricing" then
    let cevo' :=
      if optTruthy item.cost_estimates.monthly_total then
        cevo ++ ["$" ++ money0 (item.cost_estimates.monthly_total.getD 0)
          ++ "/month"]
      else cevo
    (sitems ++ ["Pricing query: " ++ takeChars 80 item.query ++ "..."],
      aevo, cevo')
  else if item.query_type = "comparison" then
    (sitems ++ ["Comparison: " ++ takeChars 80 item.query ++ "..."], aevo, cevo)
  else if item.query_type = "optimization" then
    (sitems ++ ["Optimization: " ++ takeChars 80 item.query ++ "..."], aevo, cevo)
  else if item.query_type = "scenario" then
    (sitems ++ ["Scenario: " ++ takeChars 80 item.query ++ "..."], aevo, cevo)
  else if item.query_type = "modification" then
    let aevo' :=
      if item.architecture_info.services ≠ [] then
        aevo ++ ["Added: " ++ joinSep ", " item.architecture_info.services]
      else aevo
    (sitems ++ ["Architecture change: " ++ takeChars 80 item.query ++ "..."],
      aevo', cevo)
  else
    (sitems ++ ["General query: " ++ takeChars 80 item.query ++ "..."],
      aevo, cevo)

/-- `AWSPricingAgent._summarize_conversation_context()` (lines 1293-1356)
as a function of the context list: unchanged when it holds at most 2
entries, otherwise one synthetic summary entry (if any summary parts were
produced) followed by the last 2 raw entries. -/
def summarize_conversation_context (ctx : List ContextEntry) (now : ℚ) :
    List ContextEntry :=
  if ctx.length ≤ 2 then ctx
  else
    let recent_context := lastN 2 ctx
    let older_context := ctx.take (ctx.length - 2)
    let acc := older_context.foldl summarizeStep ([], [], [])
    let summary_items := acc.1
    let architecture_evolution := acc.2.1
    let cost_evolution := acc.2.2
    let summary_parts : List String :=
      (if summary_items ≠ [] then
        ["Previous queries: " ++ joinSep "; " (lastN 3 summary_items)] else []) ++
      (if architecture_evolution ≠ [] then
        ["Architecture evolution: " ++ joinSep "; " architecture_evolution]
       else []) ++
      (if cost_evolution ≠ [] then
        ["Cost progression: " ++ joinSep " → " (lastN 3 cost_evolution)] else [])
    if summary_parts ≠ [] then
      { query := "CONTEXT_SUMMARY",
        response := "Conversation summary: " ++ joinSep " | " summary_parts,
        timestamp := now, query_type := "summary",
        architecture_info := {}, cost_estimates := {} } :: recent_context
    else recent_context

/-- The context entry appended by `_manage_conversation_context`
(lines 1270-1277). -/
def new_context_entry (query response : String) (now : ℚ) : ContextEntry :=
  { query := query, response := response, timestamp := now,
    architecture_info := extract_architecture_info query response,
    query_type := classify_query_type query,
    cost_estimates := extract_cost_estimates response }

/-- The token estimate of lines 1285-1287: total characters of all queries
and responses in the context, divided by 4. -/
def estimated_tokens_of (ctx : List ContextEntry) : ℕ :=
  (ctx.map (fun e => e.query.data.length + e.response.data.length)).sum / 4

/-- `AWSPricingAgent._manage_conversation_context(query, response)`
(lines 1264-1291): append the enriched entry, merge the architecture state
when services or configurations were extracted, then summarize if the
character-based token estimate exceeds the budget. -/
def manage_conversation_context (st : AgentState) (query response : String)
    (now : ℚ) : AgentState :=
  let architecture_info := extract_architecture_info query response
  let st1 : AgentState := { st with
    conversation_context :=
      st.conversation_context ++ [new_context_entry query response now] }
  let st2 : AgentState :=
    if architecture_info.services ≠ [] ∨ architecture_info.instance_types ≠ [] then
      { st1 with current_architecture :=
          update_architecture_state st1.current_architecture architecture_info now }
    else st1
  if st2.max_context_length < estimated_tokens_of st2.conversation_context then
    { st2 with conversation_context :=
        summarize_conversation_context st2.conversation_context now }
  else st2

/-- `AWSPricingAgent._add_scenario_to_history(query, response, cost_info)`
(lines 1248-1262). -/
def add_scenario_to_history (st : AgentState) (query response : String)
    (cost_info : CostInfo) (now : ℚ) : AgentState :=
  let scenario : Scenario :=
    { query := query,
      response_summary :=
        if 200 < response.data.length then takeChars 200 response ++ "..."
        else response,
      cost_info := cost_info, timestamp := now,
      architecture_snapshot := st.current_architecture }
  let sh := st.scenario_history ++ [scenario]
  { st with scenario_history := if 5 < sh.length then lastN 5 sh else sh }

/-- `AWSPricingAgent._get_context_aware_query(query)` (lines 1358-1396). -/
def get_context_aware_query (st : AgentState) (query : String) : String :=
  if st.conversation_context = [] then query
  else
    let arch_summary := format_architecture_summary st.current_architecture
    let cost_summary := format_baseline_costs st.baseline_costs
    let recent_context :=
      ((lastN 2 st.conversation_context).filter
        (fun item => item.query ≠ "CONTEXT_SUMMARY")).map
        (fun item => "Previous " ++ item.query_type ++ ": " ++
          takeChars 100 item.query)
    let context_parts : List String :=
      (if arch_summary ≠ "" then ["Current Architecture: " ++ arch_summary]
       else []) ++
      (if cost_summary ≠ "" then ["Baseline Costs: " ++ cost_summary]
       else []) ++
      (if recent_context ≠ [] then
        ["Recent Discussion: " ++ joinSep "; " recent_context] else []) ++
      (if is_comparison_query query ∧ st.scenario_history ≠ [] then
        ["Previous Scenarios: " ++ toString st.scenario_history.length ++
          " discussed"] else [])
    if context_parts ≠ [] then
      "CONTEXT:\n" ++ joinSep "\n" context_parts ++ "\n\nCURRENT QUERY: "
        ++ query
    else query

/-!  ## aws_pricing_agent.py : error responses and the main entry point -/

/-- `AWSPricingAgent._generate_error_response(query, error)` (lines
979-1061): a user-facing message picked by substring-matching the
exception text (timeout / connection / invalid-format / default). -/
def generate_error_response (query : String) (e : PyExc) : String :=
  let error_msg := e.emsg
  let query_lower := lowerString query
  let is_pricing :=
    ["cost", "price", "pricing", "budget", "estimate"].any
      (fun k => strContains query_lower k)
  let base_response :=
    "I apologize, but I encountered an issue while processing your request."
      ++ (if is_pricing then
        " I understand you\x27re looking for AWS pricing information." else "")
  let eml := lowerString error_msg
  if strContains eml "timeout" then
    base_response ++ "\n\n**Issue:** The request timed out while retrieving pricing data.\n\n**What you can try:**\n1. **Simplify your query** - Ask about specific services one at a time\n2. **Be more specific** - Include exact instance types, regions, or service configurations\n3. **Try again** - The service may be temporarily busy\n\n**Example of a simpler query:**\n\"What\x27s the cost of a t3.small EC2 instance in us-east-1?\"\n\nWould you like to try rephrasing your question with more specific details?"
  else if strContains eml "connection" || strContains eml "network" then
    base_response ++ "\n\n**Issue:** Unable to connect to real-time pricing data service.\n\n**Current status:** Operating in fallback mode with estimated pricing.\n\n**What this means:**\n- I can still provide cost estimates based on my knowledge\n- Estimates may not reflect the most current AWS pricing\n- I recommend verifying with AWS Calculator for precise costs\n\n**How to get current pricing:**\n1. Visit the [AWS Calculator](https://calculator.aws/)\n2. Check the AWS Console for current pricing\n3. Try your query again in a few minutes\n\nWould you like me to provide an estimated cost analysis based on my knowledge base?"
  else if strContains eml "invalid" || strContains eml "format" then
    base_response ++ "\n\n**Issue:** There was a problem with the query format or parameters.\n\n**What you can try:**\n1. **Rephrase your question** - Use simpler language\n2. **Be more specific** - Include service names, regions, and configurations\n3. **Check service names** - Ensure AWS service names are correct\n\n**Example queries that work well:**\n- \"Cost of EC2 t3.medium in us-east-1\"\n- \"RDS MySQL pricing for db.t3.small\"\n- \"S3 storage costs for 100GB\"\n\nCould you please rephrase your question with more specific details about the AWS services you\x27re interested in?"
  else
    base_response ++ "\n\n**Issue:** " ++ e.ename ++ " - "
      ++ takeChars 100 error_msg
      ++ (if 100 < error_msg.data.length then "..." else "")
      ++ "\n\n**What you can try:**\n1. **Rephrase your question** - Try asking in a different way\n2. **Be more specific** - Include exact AWS service names and configurations\n3. **Try a simpler query** - Ask about one service at a time\n4. **Check your request** - Ensure you\x27re asking about AWS services and pricing\n\n**Need help?** Here are some example queries:\n- \"What does it cost to run a web application on AWS?\"\n- \"EC2 pricing for t3.small instances\"\n- \"Compare costs between us-east-1 and eu-west-1\"\n\nWould you like to try asking your question in a different way?"

/-- `AWSPricingAgent._handle_mcp_error_enhanced(operation, error)` (lines
216-281). -/
def handle_mcp_error_enhanced (st : AgentState) (operation : String)
    (e : PyExc) : ErrorInfo :=
  let base : ErrorInfo :=
    { operation := operation, error_type := e.ename, error_message := e.emsg }
  let error_str := lowerString e.emsg
  if strContains error_str "timeout" || strContains error_str "connection" then
    { base with
      optimization_suggestions :=
        ["Reduce query complexity by using more specific filters",
         "Break complex queries into smaller parts",
         "Use cached results when available"],
      troubleshooting :=
        ["Check network connectivity to AWS services",
         "Verify MCP server timeout settings (current: 90s)",
         "Try again in a few moments - server may be temporarily busy"] }
  else if strContains error_str "invalid" || strContains error_str "format" then
    { base with
      optimization_suggestions :=
        ["Verify filter field names using discovery tools",
         "Check filter values using attribute value tools",
         "Use exact field names and values from MCP server"],
      troubleshooting :=
        ["Review query format and filter specifications",
         "Check AWS service codes and attribute names",
         "Consult AWS Pricing API documentation for valid parameters"] }
  else
    match st.mcp_error_reason with
    | some r =>
      if r = "uvx_not_installed" then
        { base with troubleshooting :=
          ["Install uvx: pip install uvx",
           "Or install uv first: pip install uv, then uvx will be available",
           "Verify installation: uvx --version",
           "Test AWS Labs MCP server: uvx awslabs.aws-pricing-mcp-server@latest"] }
      else if r = "missing_dependencies" then
        { base with troubleshooting :=
          ["Install MCP dependencies: pip install mcp",
           "Install Strands MCP tools: pip install strands[mcp]",
           "Verify AWS Labs MCP server: uvx awslabs.aws-pricing-mcp-server@latest"] }
      else
        { base with troubleshooting :=
          ["Check AWS Labs MCP server: uvx awslabs.aws-pricing-mcp-server@latest",
           "Verify network connectivity and AWS credentials",
           "Check system permissions for subprocess execution",
           "Try restarting the application"] }
    | none =>
      { base with troubleshooting :=
        ["Check AWS Labs MCP server status and configuration",
         "Verify awslabs.aws-pricing-mcp-server is installed and accessible",
         "Check application logs for detailed error information"] }

/-- The raw-tool-data response template of lines 1787-1792, used when the
multi-agent pipeline failed downstream of a successful tool call. -/
def raw_tool_data_response (tool_response : String) : String :=
  "**Real-time AWS Pricing Data:**\n\n" ++ tool_response ++
    "\n\n**Data Source:** Live AWS Pricing API\n**Note:** Downstream processing failed, showing raw pricing data."

/-- Lines 1802-1805: prepend the fallback banner unless the model response
already starts with the warning sign. -/
def fallback_banner_wrap (response_str : String) : String :=
  if strStartsWith response_str "⚠️" then response_str
  else
    "⚠️ **Real-time pricing data temporarily unavailable** - Using knowledge base estimates.\n\n"
      ++ response_str ++
      "\n\n**Note:** Please verify pricing with AWS Calculator for current rates."

/-- The running-average update of lines 1813-1817:
`(avg * (n - 1) + response_time) / n`. -/
def updated_avg (old : ℚ) (n : ℕ) (rt : ℚ) : ℚ :=
  let s := qAdd (qMul old (mkRat ((n : ℤ) - 1) 1)) rt
  mkRat s.num (s.den * n)

/-- The tiered execution of `process_pricing_query`, represented as
`Except PyExc (response, mcp_available, mcp_calls increment)`:
  * tier-1 success and the partial raw-data path (lines 1761-1792) yield
    `mcp_available = true` and increment `mcp_calls`;
  * a tier-1 failure with no tool data (lines 1794-1805) runs the fallback
    agent on the context-enriched query and wraps it in the banner;
  * with no MCP client at all (lines 1806-1810) the fallback agent is used
    directly, with no banner enforcement;
  * a `.error` is an exception escaping to the outer handler (lines
    1855-1872). -/
def tiered_outcome (env : CallEnv) (mcpClientPresent : Bool)
    (context_aware_query : String) : Except PyExc (String × Bool × ℕ) :=
  if mcpClientPresent then
    match env.tier1 with
    | .success resp => .ok (resp, true, 1)
    | .partialData tool_response =>
      .ok (raw_tool_data_response tool_response, true, 1)
    | .failure _ =>
      match env.fallback context_aware_query with
      | .ok r => .ok (fallback_banner_wrap r, false, 0)
      | .error e => .error e
  else
    match env.fallback context_aware_query with
    | .ok r => .ok (r, false, 0)
    | .error e => .error e

/-- The post-processing of a successful tier outcome (lines 1812-1852):
running-average update, context management, baseline-cost overwrite,
scenario history, and admission to the cache only while it holds fewer
than 10 entries.  `st1` is the state with `total_queries` already
incremented; `out` is (response, final mcp_available flag, mcp_calls
increment). -/
def success_post (env : CallEnv) (st1 : AgentState) (query : String)
    (out : String × Bool × ℕ) : PricingResult × AgentState :=
  let response_str := out.1
  let mcp_available := out.2.1
  let st2 : AgentState := { st1 with performance_stats :=
    { st1.performance_stats with
      mcp_calls := st1.performance_stats.mcp_calls + out.2.2,
      avg_response_time := updated_avg
        st1.performance_stats.avg_response_time
        st1.performance_stats.total_queries env.response_time } }
  let st3 := manage_conversation_context st2 query response_str env.now
  let cost_info := extract_cost_estimates response_str
  let st4 : AgentState :=
    if optTruthy cost_info.monthly_total ∨ cost_info.service_breakdown ≠ []
      then { st3 with baseline_costs := cost_info }
    else st3
  let st5 : AgentState :=
    if is_comparison_query query ∨ classify_query_type query = "scenario"
        ∨ classify_query_type query = "modification" then
      add_scenario_to_history st4 query response_str cost_info env.now
    else st4
  let result : PricingResult :=
    { status := "success", response := response_str,
      agent_type :=
        if mcp_available then "aws_pricing_enhanced"
        else "aws_pricing_fallback",
      mcp_available := mcp_available,
      response_time := env.response_time,
      performance_stats := st5.performance_stats,
      cached := false, timestamp := qToStr env.now,
      confidence := if mcp_available then "high" else "medium",
      context_length := st5.conversation_context.length,
      current_architecture := st5.current_architecture,
      baseline_costs := st5.baseline_costs,
      scenarios_tracked := st5.scenario_history.length }
  let st6 : AgentState :=
    if st5.query_cache.length < 10 then
      { st5 with query_cache :=
        st5.query_cache ++ [(trimString (lowerString query), result)] }
    else st5
  (result, st6)

/-- `AWSPricingAgent.process_pricing_query(query)` (lines 1398-1872):
increment `total_queries`, build the context-enriched query, serve a cache
hit (marking it `cached` and bumping `cache_hits`), otherwise run the
tiered execution; an escaped exception yields the error dict of lines
1862-1872 with the state otherwise untouched, a success runs the
post-processing of `success_post`.  `bump_total` is the `total_queries`
increment of line 1414. -/
def bump_total (st : AgentState) : AgentState :=
  { st with performance_stats :=
    { st.performance_stats with
      total_queries := st.performance_stats.total_queries + 1 } }

def process_pricing_query (env : CallEnv) (st : AgentState) (query : String) :
    PricingResult × AgentState :=
  let st1 : AgentState := bump_total st
  let context_aware_query := get_context_aware_query st1 query
  let query_hash := trimString (lowerString query)
  match lookupCache st1.query_cache query_hash with
  | some cached =>
    let st2 : AgentState := { st1 with performance_stats :=
      { st1.performance_stats with
        cache_hits := st1.performance_stats.cache_hits + 1 } }
    ({ cached with cached := true, timestamp := qToStr env.now }, st2)
  | none =>
    match tiered_outcome env st1.mcpClientPresent context_aware_query with
    | .error e =>
      ({ status := "error", response := generate_error_response query e,
         error := some e.emsg, agent_type := "aws_pricing_error",
         mcp_available := st1.mcpClientPresent,
         response_time := env.response_time,
         performance_stats := st1.performance_stats,
         troubleshooting :=
           some (handle_mcp_error_enhanced st1 "query_processing" e),
         confidence := "low" }, st1)
    | .ok out => success_post env st1 query out

/-!  ## Concrete instances used by witnesses and counterexamples -/

/-- A one-capability pricing agent used by the C2 witness. -/
def agentPricingDemo : RegisteredAgent :=
  { id := "pricing",
    capabilities := [{ keywords := ["price"], priority := 7, confidence_threshold := mkRat 3 10 }] }

/-- First of two agents with identical capabilities (C3 witness). -/
def agentTieA : RegisteredAgent :=
  { id := "A",
    capabilities := [{ keywords := ["cost"], priority := 8, confidence_threshold := mkRat 3 10 }] }

/-- Second of two agents with identical capabilities (C3 witness). -/
def agentTieB : RegisteredAgent :=
  { id := "B",
    capabilities := [{ keywords := ["cost"], priority := 8, confidence_threshold := mkRat 3 10 }] }

/-- Environment for the C1 witness: the MCP tier always times out, the
model invocation succeeds. -/
def envTimeoutFb : CallEnv :=
  { tier1 := .failure { ename := "Exception", emsg := "Tool execution timeout after 30.00s" },
    fallback := fun _ => .ok "Estimate: a t3.small runs about $15 per month." }

/-- Environment with a plain succeeding fallback model (C8, C9). -/
def envPlainOk : CallEnv :=
  { tier1 := .failure {}, fallback := fun _ => .ok "ok" }

/-- A minimal cached success result used to fill the cache (C8). -/
def dummySuccessResult : PricingResult :=
  { status := "success", response := "r", agent_type := "aws_pricing_fallback",
    mcp_available := false, performance_stats := {}, confidence := "medium" }

/-- A state whose query cache is already at the 10-entry cap (C8). -/
def fullCacheState : AgentState :=
  { query_cache := List.replicate 10 ("k", dummySuccessResult) }

/-- Environment whose fallback model raises (C10 witness): both tiers
fail. -/
def envBothFail : CallEnv :=
  { tier1 := .failure { emsg := "boom" },
    fallback := fun _ => .error { ename := "TimeoutError", emsg := "timeout occurred" } }

/-- A three-turn context entry with a short query and response (C6). -/
def smallEntry : ContextEntry :=
  { query := "q", response := "rrrrrrrrrr" }

/-- A state over the token budget once one more turn arrives: three turns
of 11 characters each against a budget of 5 tokens (C6 witness). -/
def overBudgetState : AgentState :=
  { conversation_context := [smallEntry, smallEntry, smallEntry],
    max_context_length := 5 }

/-!  # Theorems

First the bridge lemmas identifying the kernel-computable arithmetic
wrappers with the ordinary field operations on `ℚ`. -/

theorem qAdd_eq (a b : ℚ) : qAdd a b = a + b := by
  unfold qAdd
  rw [Rat.mkRat_eq_div]
  push_cast
  conv_rhs => rw [← Rat.num_div_den a, ← Rat.num_div_den b]
  have ha : (a.den : ℚ) ≠ 0 := by exact_mod_cast a.den_nz
  have hb : (b.den : ℚ) ≠ 0 := by exact_mod_cast b.den_nz
  field_simp

theorem qMul_eq (a b : ℚ) : qMul a b = a * b := by
  unfold qMul
  rw [Rat.mkRat_eq_div]
  push_cast
  conv_rhs => rw [← Rat.num_div_den a, ← Rat.num_div_den b]
  have ha : (a.den : ℚ) ≠ 0 := by exact_mod_cast a.den_nz
  have hb : (b.den : ℚ) ≠ 0 := by exact_mod_cast b.den_nz
  field_simp

theorem mkRat_eq_div' (n : ℤ) (d : ℕ) : mkRat n d = (n : ℚ) / (d : ℚ) :=
  Rat.mkRat_eq_div n d

theorem mkRat_nonneg_of (n : ℤ) (d : ℕ) (h : 0 ≤ n) : 0 ≤ mkRat n d := by
  rw [mkRat_eq_div']
  apply div_nonneg
  · exact_mod_cast h
  · exact_mod_cast Nat.zero_le d

/-!  ## Helper lemmas about the running-max folds -/

theorem foldl_max_init_le (f : AgentCapability → ℚ) (l : List AgentCapability) :
    ∀ init : ℚ, init ≤ l.foldl (fun m cap => max m (f cap)) init := by
  induction l with
  | nil => intro init; simp
  | cons a tl ih =>
    intro init
    calc init ≤ max init (f a) := le_max_left _ _
    _ ≤ tl.foldl (fun m cap => max m (f cap)) (max init (f a)) := ih _

theorem foldl_max_ge_elem (f : AgentCapability → ℚ) (l : List AgentCapability)
    (a : AgentCapability) (ha : a ∈ l) :
    ∀ init : ℚ, f a ≤ l.foldl (fun m cap => max m (f cap)) init := by
  induction l with
  | nil => cases ha
  | cons b tl ih =>
    intro init
    rcases List.mem_cons.mp ha with h | h
    · subst h
      calc f a ≤ max init (f a) := le_max_right _ _
      _ ≤ tl.foldl (fun m cap => max m (f cap)) (max init (f a)) :=
        foldl_max_init_le f tl _
    · exact ih h _

theorem foldl_max_eq_zero (f : AgentCapability → ℚ) (l : List AgentCapability)
    (h : ∀ a ∈ l, f a = 0) :
    l.foldl (fun m cap => max m (f cap)) 0 = 0 := by
  induction l with
  | nil => simp
  | cons b tl ih =>
    have hb : f b = 0 := h b (List.mem_cons_self b tl)
    simp only [List.foldl_cons, hb, max_self]
    exact ih (fun a ha => h a (List.mem_cons_of_mem b ha))

/-!  ## Properties of `capabilityScore` -/

theorem kwMatches_pos_keywords_ne (ql : String) (cap : AgentCapability)
    (h : 0 < (cap.keywords.filter (fun k => strContains ql k)).length) :
    cap.keywords ≠ [] := by
  intro hk
  rw [hk] at h
  simp at h

theorem phMatches_pos_phrases_ne (ql : String) (cap : AgentCapability)
    (h : 0 < (cap.phrases.filter (fun p => strContains ql p)).length) :
    cap.phrases ≠ [] := by
  intro hk
  rw [hk] at h
  simp at h

/-- With no keyword and no phrase match, a capability contributes score 0
(the source leaves `score = 0.0` untouched). -/
theorem capabilityScore_eq_zero (ql : String) (cap : AgentCapability)
    (h1 : (cap.keywords.filter (fun k => strContains ql k)).length = 0)
    (h2 : (cap.phrases.filter (fun p => strContains ql p)).length = 0) :
    capabilityScore ql cap = 0 := by
  unfold capabilityScore
  simp only [h1, h2, lt_irrefl, and_false, if_false, lt_self_iff_false]

/-- With at least one keyword or phrase match, a capability contributes at
least the 0.6 floor. -/
theorem capabilityScore_ge_floor (ql : String) (cap : AgentCapability)
    (h : 0 < (cap.keywords.filter (fun k => strContains ql k)).length ∨
      0 < (cap.phrases.filter (fun p => strContains ql p)).length) :
    mkRat 3 5 ≤ capabilityScore ql cap := by
  unfold capabilityScore
  simp only [qAdd_eq, qMul_eq, mkRat_eq_div']
  push_cast
  set km := (cap.keywords.filter (fun k => strContains ql k)).length with hkm
  set pm := (cap.phrases.filter (fun p => strContains ql p)).length with hpm
  by_cases hk0 : 0 < km
  · have hk : cap.keywords ≠ [] ∧ 0 < km :=
      ⟨kwMatches_pos_keywords_ne ql cap hk0, hk0⟩
    have hmin : (0 : ℚ) ≤ min ((km : ℚ) / (cap.keywords.length : ℚ)) 1 := by
      apply le_min
      · positivity
      · norm_num
    have hs0 : (0 : ℚ) <
        (2 : ℚ) / 5 + min ((km : ℚ) / (cap.keywords.length : ℚ)) 1 * (2 / 5) := by
      nlinarith
    by_cases hp : cap.phrases ≠ [] ∧ 0 < pm
    · simp only [if_pos hk, if_pos hp]
      have haddend : (0 : ℚ) ≤ min ((pm : ℚ) / 1 * (1 / 2)) (9 / 10) := by
        apply le_min
        · positivity
        · norm_num
      have hE : (0 : ℚ) <
          ((2 : ℚ) / 5 + min ((km : ℚ) / (cap.keywords.length : ℚ)) 1 * (2 / 5)) +
            min ((pm : ℚ) / 1 * (1 / 2)) (9 / 10) := by
        nlinarith
      rw [if_pos hE, if_pos h]
      exact le_max_right _ _
    · simp only [if_pos hk, if_neg hp]
      rw [if_pos hs0, if_pos h]
      exact le_max_right _ _
  · have hp0 : 0 < pm := h.resolve_left hk0
    have hp : cap.phrases ≠ [] ∧ 0 < pm :=
      ⟨phMatches_pos_phrases_ne ql cap hp0, hp0⟩
    have hk : ¬(cap.keywords ≠ [] ∧ 0 < km) := by
      intro hc
      exact hk0 hc.2
    simp only [if_neg hk, if_pos hp]
    have hpm1 : (1 : ℚ) ≤ (pm : ℚ) := by exact_mod_cast hp0
    have haddend : (1 : ℚ) / 2 ≤ min ((pm : ℚ) / 1 * (1 / 2)) (9 / 10) := by
      apply le_min
      · nlinarith
      · norm_num
    have hE : (0 : ℚ) < 0 + min ((pm : ℚ) / 1 * (1 / 2)) (9 / 10) := by
      nlinarith
    rw [if_pos hE, if_pos h]
    exact le_max_right _ _

theorem capabilityScore_nonneg (ql : String) (cap : AgentCapability) :
    0 ≤ capabilityScore ql cap := by
  by_cases h : 0 < (cap.keywords.filter (fun k => strContains ql k)).length ∨
      0 < (cap.phrases.filter (fun p => strContains ql p)).length
  · calc (0 : ℚ) ≤ mkRat 3 5 := mkRat_nonneg_of 3 5 (by norm_num)
    _ ≤ capabilityScore ql cap := capabilityScore_ge_floor ql cap h
  · push_neg at h
    rw [capabilityScore_eq_zero ql cap (Nat.le_zero.mp h.1) (Nat.le_zero.mp h.2)]

theorem filter_pos_iff (p : String → Bool) (l : List String) :
    0 < (l.filter p).length ↔ ∃ a ∈ l, p a = true := by
  rw [List.length_pos]
  constructor
  · intro h
    by_contra hc
    push_neg at hc
    apply h
    rw [List.filter_eq_nil_iff]
    intro a ha
    simp [hc a ha]
  · rintro ⟨a, ha, hpa⟩ hnil
    have := List.filter_eq_nil_iff.mp hnil a ha
    simp [hpa] at this

theorem get_confidence_score_nonneg (caps : List AgentCapability)
    (query : String) : 0 ≤ get_confidence_score caps query := by
  unfold get_confidence_score
  apply le_min
  · exact foldl_max_init_le _ caps 0
  · norm_num

theorem get_confidence_score_le_one (caps : List AgentCapability)
    (query : String) : get_confidence_score caps query ≤ 1 :=
  min_le_right _ _

theorem get_confidence_score_ge_floor (caps : List AgentCapability)
    (query : String) (cap : AgentCapability) (hmem : cap ∈ caps)
    (h : 0 < (cap.keywords.filter
        (fun k => strContains (lowerString query) k)).length ∨
      0 < (cap.phrases.filter
        (fun p => strContains (lowerString query) p)).length) :
    mkRat 3 5 ≤ get_confidence_score caps query := by
  unfold get_confidence_score
  apply le_min
  · calc mkRat 3 5 ≤ capabilityScore (lowerString query) cap :=
      capabilityScore_ge_floor _ cap h
    _ ≤ _ := foldl_max_ge_elem _ caps cap hmem 0
  · rw [mkRat_eq_div']
    norm_num

/-- Claim C4: for a fixed query and fixed capability set,
`get_confidence_score` is pure and deterministic (it is a function of its
two arguments alone in this embedding); its result always lies in [0, 1];
and the result is 0 exactly when no keyword and no phrase of any capability
occurs as a substring of the lower-cased query. -/
theorem claim_C4_score_range_and_zero (caps : List AgentCapability)
    (query : String) :
    (0 ≤ get_confidence_score caps query ∧ get_confidence_score caps query ≤ 1)
    ∧ (get_confidence_score caps query = 0 ↔
      ∀ cap ∈ caps,
        (∀ k ∈ cap.keywords, strContains (lowerString query) k = false) ∧
        (∀ p ∈ cap.phrases, strContains (lowerString query) p = false)) := by
  refine ⟨⟨get_confidence_score_nonneg caps query,
    get_confidence_score_le_one caps query⟩, ?_, ?_⟩
  · intro h0 cap hmem
    by_contra hc
    rw [not_and_or] at hc
    have hmatch : 0 < (cap.keywords.filter
        (fun k => strContains (lowerString query) k)).length ∨
        0 < (cap.phrases.filter
          (fun p => strContains (lowerString query) p)).length := by
      rcases hc with hc | hc
      · left
        rw [filter_pos_iff]
        push_neg at hc
        obtain ⟨k, hk, hne⟩ := hc
        exact ⟨k, hk, by revert hne; cases strContains (lowerString query) k <;> simp⟩
      · right
        rw [filter_pos_iff]
        push_neg at hc
        obtain ⟨p, hp, hne⟩ := hc
        exact ⟨p, hp, by revert hne; cases strContains (lowerString query) p <;> simp⟩
    have hge := get_confidence_score_ge_floor caps query cap hmem hmatch
    rw [h0, mkRat_eq_div'] at hge
    norm_num at hge
  · intro hall
    unfold get_confidence_score
    have hz : ∀ cap ∈ caps, capabilityScore (lowerString query) cap = 0 := by
      intro cap hmem
      apply capabilityScore_eq_zero
      · rw [List.length_eq_zero, List.filter_eq_nil_iff]
        intro k hk
        simp [(hall cap hmem).1 k hk]
      · rw [List.length_eq_zero, List.filter_eq_nil_iff]
        intro p hp
        simp [(hall cap hmem).2 p hp]
    show min (List.foldl
      (fun m cap => max m (capabilityScore (lowerString query) cap)) 0 caps) 1 = 0
    rw [foldl_max_eq_zero _ caps hz]
    norm_num

/-- Claim C5: a capability with priority at least 5 and confidence
threshold at most 0.6 gives, for every query matching at least one of its
keywords or phrases, an agent-level confidence of at least 0.6 (after the
floor rule). -/
theorem claim_C5_floor_invariant (caps : List AgentCapability)
    (query : String) (cap : AgentCapability)
    (hmem : cap ∈ caps) (hpr : 5 ≤ cap.priority)
    (hthr : cap.confidence_threshold ≤ mkRat 3 5)
    (hmatch : (∃ k ∈ cap.keywords, strContains (lowerString query) k = true) ∨
      ∃ p ∈ cap.phrases, strContains (lowerString query) p = true) :
    mkRat 3 5 ≤ get_confidence_score caps query := by
  apply get_confidence_score_ge_floor caps query cap hmem
  rcases hmatch with h | h
  · left
    exact (filter_pos_iff _ _).mpr h
  · right
    exact (filter_pos_iff _ _).mpr h

/-- Witness for C5: the capability of the spec (priority 5, sole keyword
"cost", threshold 0.6) and the query "the cost is high" reach confidence
at least 0.6; in fact here the confidence is exactly 0.6. -/
theorem claim_C5_floor_invariant_witness :
    mkRat 3 5 ≤ get_confidence_score
      [{ keywords := ["cost"], priority := 5,
         confidence_threshold := mkRat 3 5 }] "the cost is high" :=
  claim_C5_floor_invariant
    [{ keywords := ["cost"], priority := 5, confidence_threshold := mkRat 3 5 }]
    "the cost is high"
    { keywords := ["cost"], priority := 5, confidence_threshold := mkRat 3 5 }
    (by decide) (by decide) (by decide)
    (Or.inl ⟨"cost", by decide, by decide⟩)

/-!  ## Characterization of find_best_agent -/

/-- One loop iteration of `find_best_agent`, phrased through
`eligibleAgent`: an eligible agent updates the accumulator exactly when it
strictly beats the running best score; every other case is a `continue`. -/
theorem findBestLoop_cons (query : String) (ex : List String)
    (a : RegisteredAgent) (rest : List RegisteredAgent)
    (best : Option String) (score : ℚ) :
    findBestLoop query ex (a :: rest) best score =
    if eligibleAgent query ex a then
      if score < weightedScore query a then
        findBestLoop query ex rest (some a.id) (weightedScore query a)
      else findBestLoop query ex rest best score
    else findBestLoop query ex rest best score := by
  conv_lhs => rw [findBestLoop]
  by_cases h1 : a.id ∈ ex ∨ a.enabled = false
  · rw [if_pos h1]
    have hne : ¬ eligibleAgent query ex a := by
      intro hc
      rcases h1 with h | h
      · exact hc.1 h
      · rw [hc.2.1] at h
        cases h
    rw [if_neg hne]
  · rw [if_neg h1]
    push_neg at h1
    have hen : a.enabled = true := by
      cases h : a.enabled
      · exact absurd h h1.2
      · rfl
    by_cases h2 : a.instantiable = false
    · rw [if_pos h2]
      have hne : ¬ eligibleAgent query ex a := by
        intro hc
        rw [hc.2.2.1] at h2
        cases h2
      rw [if_neg hne]
    · rw [if_neg h2]
      have hin : a.instantiable = true := by
        cases h : a.instantiable
        · exact absurd h h2
        · rfl
      rcases hcaps : a.capabilities with _ | ⟨c, cs⟩
      · simp only [hcaps]
        have hne : ¬ eligibleAgent query ex a := by
          intro hc
          exact hc.2.2.2.1 hcaps
        rw [if_neg hne]
      · simp only [hcaps]
        have hws : weightedScore query a =
            qMul (get_confidence_score (c :: cs) query)
              (mkRat (maxPriorityAux c cs) 10) := by
          unfold weightedScore
          rw [hcaps]
          rfl
        by_cases h3 : get_confidence_score (c :: cs) query <
            minThresholdAux c cs
        · rw [if_pos h3]
          have hne : ¬ eligibleAgent query ex a := by
            intro hc
            have := hc.2.2.2.2
            rw [hcaps] at this
            exact absurd this (not_le.mpr h3)
          rw [if_neg hne]
        · rw [if_neg h3]
          have hel : eligibleAgent query ex a := by
            refine ⟨h1.1, hen, hin, ?_, ?_⟩
            · rw [hcaps]
              simp
            · rw [hcaps]
              exact not_lt.mp h3
          rw [if_pos hel, hws]

/-- Loop invariant for `findBestLoop`: starting from accumulator
`(best, score)`, either nothing in `l` strictly beats `score` and the
accumulator survives, or the result is the first eligible agent of `l`
attaining the maximum weighted score among `score` and all eligible agents
of `l`. -/
theorem findBestLoop_spec (query : String) (ex : List String) :
    ∀ (l : List RegisteredAgent) (best : Option String) (score : ℚ),
    (findBestLoop query ex l best score = best ∧
      ∀ a ∈ l, eligibleAgent query ex a → weightedScore query a ≤ score) ∨
    (∃ l1 a l2, l = l1 ++ a :: l2 ∧
      findBestLoop query ex l best score = some a.id ∧
      eligibleAgent query ex a ∧ score < weightedScore query a ∧
      (∀ b ∈ l1, eligibleAgent query ex b →
        weightedScore query b < weightedScore query a) ∧
      (∀ b ∈ l2, eligibleAgent query ex b →
        weightedScore query b ≤ weightedScore query a)) := by
  intro l
  induction l with
  | nil =>
    intro best score
    left
    exact ⟨rfl, by simp⟩
  | cons a rest ih =>
    intro best score
    rw [findBestLoop_cons]
    by_cases he : eligibleAgent query ex a
    · by_cases hs : score < weightedScore query a
      · rw [if_pos he, if_pos hs]
        rcases ih (some a.id) (weightedScore query a) with
          ⟨heq, hbound⟩ | ⟨l1, b, l2, hsplit, heq, helig, hlt, hl1, hl2⟩
        · right
          exact ⟨[], a, rest, rfl, heq, he, hs, by simp,
            fun b hb hbe => hbound b hb hbe⟩
        · right
          refine ⟨a :: l1, b, l2, by rw [hsplit]; rfl, heq, helig,
            lt_trans hs hlt, ?_, hl2⟩
          intro c hc hce
          rcases List.mem_cons.mp hc with h | h
          · subst h
            exact hlt
          · exact hl1 c h hce
      · rw [if_pos he, if_neg hs]
        rcases ih best score with
          ⟨heq, hbound⟩ | ⟨l1, b, l2, hsplit, heq, helig, hlt, hl1, hl2⟩
        · left
          refine ⟨heq, ?_⟩
          intro c hc hce
          rcases List.mem_cons.mp hc with h | h
          · subst h
            exact not_lt.mp hs
          · exact hbound c h hce
        · right
          refine ⟨a :: l1, b, l2, by rw [hsplit]; rfl, heq, helig, hlt, ?_, hl2⟩
          intro c hc hce
          rcases List.mem_cons.mp hc with h | h
          · subst h
            exact lt_of_le_of_lt (not_lt.mp hs) hlt
          · exact hl1 c h hce
    · rw [if_neg he]
      rcases ih best score with
        ⟨heq, hbound⟩ | ⟨l1, b, l2, hsplit, heq, helig, hlt, hl1, hl2⟩
      · left
        refine ⟨heq, ?_⟩
        intro c hc hce
        rcases List.mem_cons.mp hc with h | h
        · subst h
          exact absurd hce he
        · exact hbound c h hce
      · right
        refine ⟨a :: l1, b, l2, by rw [hsplit]; rfl, heq, helig, hlt, ?_, hl2⟩
        intro c hc hce
        rcases List.mem_cons.mp hc with h | h
        · subst h
          exact absurd hce he
        · exact hl1 c h hce


/-- Claim C2: `find_best_agent` never returns an agent whose computed
confidence is strictly below the minimum `confidence_threshold` among that
agent own capabilities: any returned id belongs to a registered, enabled,
non-excluded agent whose confidence clears that minimum (below-threshold
agents are skipped by the loop, so only eligible agents can win). -/
theorem claim_C2_threshold_exclusion (registry : List RegisteredAgent)
    (query : String) (exclude_agents : List String) (id : String)
    (h : find_best_agent registry query exclude_agents = some id) :
    ∃ a, a ∈ registry ∧ a.id = id ∧ a.id ∉ exclude_agents ∧
      a.enabled = true ∧
      minThreshold a.capabilities ≤ get_confidence_score a.capabilities query := by
  rcases findBestLoop_spec query exclude_agents registry none 0 with
    ⟨heq, _⟩ | ⟨l1, a, l2, hsplit, heq, helig, _, _, _⟩
  · rw [find_best_agent, heq] at h
    cases h
  · rw [find_best_agent, heq] at h
    refine ⟨a, ?_, by injection h, helig.1, helig.2.1, helig.2.2.2.2⟩
    rw [hsplit]
    exact List.mem_append_right l1 (List.mem_cons_self a l2)

/-- Witness for C2 at a concrete registry: one enabled agent that clears
its own threshold wins, and the conclusion of C2 is obtained for it. -/
theorem claim_C2_threshold_exclusion_witness :
    ∃ a, a ∈ [agentPricingDemo] ∧ a.id = "pricing" ∧
      a.id ∉ ([] : List String) ∧ a.enabled = true ∧
      minThreshold a.capabilities ≤
        get_confidence_score a.capabilities "price of s3 storage" :=
  claim_C2_threshold_exclusion [agentPricingDemo] "price of s3 storage" []
    "pricing" (by decide)

/-- Claim C3: on success, `find_best_agent` returns an enabled,
non-excluded agent whose weighted score `confidence * (max priority / 10)`
is positive and maximal among all eligible agents, and every eligible
agent registered strictly earlier has a strictly smaller weighted score —
so two agents with exactly equal weighted scores resolve to the
first-registered one, deterministically (the function is pure). -/
theorem claim_C3_best_match_tie_break (registry : List RegisteredAgent)
    (query : String) (exclude_agents : List String) (id : String)
    (h : find_best_agent registry query exclude_agents = some id) :
    ∃ l1 a l2, registry = l1 ++ a :: l2 ∧ a.id = id ∧
      eligibleAgent query exclude_agents a ∧ 0 < weightedScore query a ∧
      (∀ b ∈ registry, eligibleAgent query exclude_agents b →
        weightedScore query b ≤ weightedScore query a) ∧
      (∀ b ∈ l1, eligibleAgent query exclude_agents b →
        weightedScore query b < weightedScore query a) := by
  rcases findBestLoop_spec query exclude_agents registry none 0 with
    ⟨heq, _⟩ | ⟨l1, a, l2, hsplit, heq, helig, hpos, hl1, hl2⟩
  · rw [find_best_agent, heq] at h
    cases h
  · rw [find_best_agent, heq] at h
    refine ⟨l1, a, l2, hsplit, by injection h, helig, hpos, ?_, hl1⟩
    intro b hb hbe
    rw [hsplit] at hb
    rcases List.mem_append.mp hb with hb | hb
    · exact le_of_lt (hl1 b hb hbe)
    · rcases List.mem_cons.mp hb with hb | hb
      · subst hb
        exact le_refl _
      · exact hl2 b hb hbe

/-- Witness for C3: two enabled agents with exactly equal weighted scores;
the returned id is the first-registered of the two, and the decomposition
certifies maximality and strictness over the earlier prefix. -/
theorem claim_C3_best_match_tie_break_witness :
    weightedScore "cost of x" agentTieA = weightedScore "cost of x" agentTieB ∧
    find_best_agent [agentTieA, agentTieB] "cost of x" [] = some "A" ∧
    (∃ l1 a l2, [agentTieA, agentTieB] = l1 ++ a :: l2 ∧ a.id = "A" ∧
      eligibleAgent "cost of x" [] a ∧ 0 < weightedScore "cost of x" a ∧
      (∀ b ∈ [agentTieA, agentTieB], eligibleAgent "cost of x" [] b →
        weightedScore "cost of x" b ≤ weightedScore "cost of x" a) ∧
      (∀ b ∈ l1, eligibleAgent "cost of x" [] b →
        weightedScore "cost of x" b < weightedScore "cost of x" a)) :=
  ⟨by decide, by decide,
    claim_C3_best_match_tie_break [agentTieA, agentTieB] "cost of x" [] "A"
      (by decide)⟩

/-!  ## Summarization (claim C6) -/

theorem summarizeStep_items_len (acc : List String × List String × List String)
    (item : ContextEntry) :
    (summarizeStep acc item).1.length = acc.1.length + 1 := by
  unfold summarizeStep
  split_ifs <;> simp

theorem foldl_summarizeStep_items_len (l : List ContextEntry) :
    ∀ acc : List String × List String × List String,
    (l.foldl summarizeStep acc).1.length = acc.1.length + l.length := by
  induction l with
  | nil => intro acc; simp
  | cons a tl ih =>
    intro acc
    rw [List.foldl_cons, ih (summarizeStep acc a), summarizeStep_items_len]
    simp
    omega

/-- `_summarize_conversation_context` leaves a context of at most 2
entries untouched (lines 1295-1296). -/
theorem summarize_short (ctx : List ContextEntry) (now : ℚ)
    (h : ctx.length ≤ 2) : summarize_conversation_context ctx now = ctx := by
  unfold summarize_conversation_context
  rw [if_pos h]

theorem singleton_append_append_ne_nil (x : String) (B C : List String) :
    ¬ ([x] ++ B ++ C = []) := by
  simp

/-- `_summarize_conversation_context` on a context of more than 2 entries
collapses it to one synthetic summary entry followed by the last 2 raw
entries. -/
theorem summarize_long (ctx : List ContextEntry) (now : ℚ)
    (h : 2 < ctx.length) :
    ∃ s, summarize_conversation_context ctx now = s :: lastN 2 ctx ∧
      s.query = "CONTEXT_SUMMARY" ∧ s.query_type = "summary" := by
  have hnotle : ¬ ctx.length ≤ 2 := not_le.mpr h
  unfold summarize_conversation_context
  rw [if_neg hnotle]
  have hitems_len :
      ((ctx.take (ctx.length - 2)).foldl summarizeStep ([], [], [])).1.length =
        ctx.length - 2 := by
    rw [foldl_summarizeStep_items_len]
    simp only [List.length_nil, List.length_take, Nat.zero_add]
    omega
  have hitems_ne :
      ((ctx.take (ctx.length - 2)).foldl summarizeStep ([], [], [])).1 ≠ [] := by
    intro hnil
    rw [hnil] at hitems_len
    simp only [List.length_nil] at hitems_len
    omega
  simp only [ne_eq, hitems_ne, not_false_eq_true, if_true]
  rw [if_pos (singleton_append_append_ne_nil _ _ _)]
  exact ⟨_, rfl, rfl, rfl⟩

/-- The conversation context produced by `_manage_conversation_context`:
the appended context, summarized exactly when the token estimate exceeds
the budget (the architecture-state update does not touch the context). -/
theorem manage_context_cases (st : AgentState) (q r : String) (now : ℚ) :
    (manage_conversation_context st q r now).conversation_context =
      if st.max_context_length <
          estimated_tokens_of
            (st.conversation_context ++ [new_context_entry q r now]) then
        summarize_conversation_context
          (st.conversation_context ++ [new_context_entry q r now]) now
      else st.conversation_context ++ [new_context_entry q r now] := by
  dsimp only [manage_conversation_context]
  split_ifs <;> rfl

/-- Claim C6: agent-level summarization never fires while the conversation
context holds at most 2 turns (the new context is kept verbatim), and
whenever it fires (the character-based token estimate exceeds the budget)
the context collapses to exactly 3 logical entries: one synthetic summary
entry plus the last 2 raw turns, however many turns were merged. -/
theorem claim_C6_summarization_bound (st : AgentState)
    (query response : String) (now : ℚ) :
    ((st.conversation_context ++ [new_context_entry query response now]).length ≤ 2 →
      (manage_conversation_context st query response now).conversation_context =
        st.conversation_context ++ [new_context_entry query response now]) ∧
    (estimated_tokens_of
        (st.conversation_context ++ [new_context_entry query response now]) ≤
        st.max_context_length →
      (manage_conversation_context st query response now).conversation_context =
        st.conversation_context ++ [new_context_entry query response now]) ∧
    (st.max_context_length < estimated_tokens_of
        (st.conversation_context ++ [new_context_entry query response now]) →
      2 < (st.conversation_context ++ [new_context_entry query response now]).length →
      ((manage_conversation_context st query response now).conversation_context).length = 3 ∧
      ∃ s, (manage_conversation_context st query response now).conversation_context =
          s :: lastN 2 (st.conversation_context ++ [new_context_entry query response now]) ∧
        s.query = "CONTEXT_SUMMARY" ∧ s.query_type = "summary") := by
  refine ⟨?_, ?_, ?_⟩
  · intro hshort
    rw [manage_context_cases]
    split_ifs with htok
    · exact summarize_short _ now hshort
    · rfl
  · intro htok
    rw [manage_context_cases, if_neg (not_lt.mpr htok)]
  · intro htok hlen
    rw [manage_context_cases, if_pos htok]
    obtain ⟨s, hs, hq, hqt⟩ := summarize_long _ now hlen
    rw [hs]
    constructor
    · simp only [List.length_cons, lastN, List.length_drop]
      omega
    · exact ⟨s, rfl, hq, hqt⟩

/-- Witness for C6: a three-turn context over its token budget collapses
to exactly 3 logical entries when the fourth turn arrives. -/
theorem claim_C6_summarization_bound_witness :
    ((manage_conversation_context overBudgetState "hi" "ok" 0).conversation_context).length = 3 :=
  ((claim_C6_summarization_bound overBudgetState "hi" "ok" 0).2.2
    (by decide) (by decide)).1

/-!  ## Tiered fallback (claim C1) -/

theorem listStartsWith_append (n : List Char) :
    ∀ pre t : List Char, listStartsWith n pre = true →
      listStartsWith n (pre ++ t) = true := by
  induction n with
  | nil => intro pre t _; rfl
  | cons a as ih =>
    intro pre t h
    cases pre with
    | nil => cases h
    | cons b bs =>
      simp only [listStartsWith, Bool.and_eq_true, decide_eq_true_eq] at h
      simp only [List.cons_append, listStartsWith, Bool.and_eq_true,
        decide_eq_true_eq]
      exact ⟨h.1, ih bs t h.2⟩

theorem strData_append (a b : String) : (a ++ b).data = a.data ++ b.data :=
  rfl

/-- Whatever the fallback model produced, the response returned by the
banner-enforcing branch starts with the warning sign. -/
theorem fallback_banner_wrap_starts (r : String) :
    strStartsWith (fallback_banner_wrap r) "⚠️" = true := by
  unfold fallback_banner_wrap
  split_ifs with h
  · exact h
  · unfold strStartsWith
    rw [strData_append, strData_append, List.append_assoc]
    exact listStartsWith_append _ _ _ (by decide)

/-- Claim C1: if the MCP client exists but the tool tier fails (raises)
while the model invocation itself succeeds, `process_pricing_query` on a
fresh (uncached) query still returns `status = success` with
`mcp_available = false`, and the response self-identifies as an estimate
(it starts with the warning banner) — it never returns `status = error`
purely because the tool was unavailable. -/
theorem claim_C1_tiered_fallback (env : CallEnv) (st : AgentState)
    (query : String) (e : PyExc) (fb : String)
    (hmcp : st.mcpClientPresent = true)
    (ht : env.tier1 = Tier1Outcome.failure e)
    (hf : ∀ p, env.fallback p = Except.ok fb)
    (hmiss : lookupCache st.query_cache (trimString (lowerString query)) = none) :
    (process_pricing_query env st query).1.status = "success" ∧
    (process_pricing_query env st query).1.mcp_available = false ∧
    strStartsWith (process_pricing_query env st query).1.response "⚠️" = true := by
  unfold process_pricing_query tiered_outcome success_post bump_total
  dsimp only
  rw [hmiss, hmcp, ht, hf]
  dsimp only
  exact ⟨rfl, rfl, fallback_banner_wrap_starts fb⟩

/-- Witness for C1: concrete always-timeout environment, empty initial
state, query "cost of t3.small". -/
theorem claim_C1_tiered_fallback_witness :
    (process_pricing_query envTimeoutFb {} "cost of t3.small").1.status = "success" ∧
    (process_pricing_query envTimeoutFb {} "cost of t3.small").1.mcp_available = false ∧
    strStartsWith
      (process_pricing_query envTimeoutFb {} "cost of t3.small").1.response "⚠️" = true :=
  claim_C1_tiered_fallback envTimeoutFb {} "cost of t3.small"
    { ename := "Exception", emsg := "Tool execution timeout after 30.00s" }
    "Estimate: a t3.small runs about $15 per month."
    rfl rfl (fun _ => rfl) (by decide)

/-!  ## Path lemmas for process_pricing_query, and claim C10 -/

theorem lookupCache_mem (l : List (String × PricingResult)) (k : String)
    (r : PricingResult) (h : lookupCache l k = some r) :
    ∃ p ∈ l, p.2 = r := by
  unfold lookupCache at h
  cases hf : l.find? (fun p => p.1 = k) with
  | none => rw [hf] at h; cases h
  | some p =>
    rw [hf] at h
    exact ⟨p, List.mem_of_find?_eq_some hf, by injection h⟩

/-- Cache-hit path of `process_pricing_query` (lines 1419-1427). -/
theorem process_hit (env : CallEnv) (st : AgentState) (query : String)
    (cached : PricingResult)
    (hlook : lookupCache st.query_cache (trimString (lowerString query)) =
      some cached) :
    process_pricing_query env st query =
      ({ cached with cached := true, timestamp := qToStr env.now },
       { st with performance_stats :=
          { st.performance_stats with
            total_queries := st.performance_stats.total_queries + 1,
            cache_hits := st.performance_stats.cache_hits + 1 } }) := by
  unfold process_pricing_query
  dsimp only
  have hlook' : lookupCache (bump_total st).query_cache
      (trimString (lowerString query)) = some cached := hlook
  rw [hlook']
  rfl

/-- Error path of `process_pricing_query` (lines 1855-1872). -/
theorem process_miss_err (env : CallEnv) (st : AgentState) (query : String)
    (e : PyExc)
    (hlook : lookupCache st.query_cache (trimString (lowerString query)) = none)
    (htier : tiered_outcome env st.mcpClientPresent
      (get_context_aware_query (bump_total st) query) = Except.error e) :
    process_pricing_query env st query =
      ({ status := "error", response := generate_error_response query e,
         error := some e.emsg, agent_type := "aws_pricing_error",
         mcp_available := st.mcpClientPresent,
         response_time := env.response_time,
         performance_stats := (bump_total st).performance_stats,
         troubleshooting :=
           some (handle_mcp_error_enhanced (bump_total st) "query_processing" e),
         confidence := "low" }, bump_total st) := by
  unfold process_pricing_query
  dsimp only
  have hlook' : lookupCache (bump_total st).query_cache
      (trimString (lowerString query)) = none := hlook
  rw [hlook']
  have htier' : tiered_outcome env (bump_total st).mcpClientPresent
      (get_context_aware_query (bump_total st) query) = Except.error e := htier
  rw [htier']
  rfl

/-- Success path of `process_pricing_query`. -/
theorem process_miss_ok (env : CallEnv) (st : AgentState) (query : String)
    (out : String × Bool × ℕ)
    (hlook : lookupCache st.query_cache (trimString (lowerString query)) = none)
    (htier : tiered_outcome env st.mcpClientPresent
      (get_context_aware_query (bump_total st) query) = Except.ok out) :
    process_pricing_query env st query = success_post env (bump_total st) query out := by
  unfold process_pricing_query
  dsimp only
  have hlook' : lookupCache (bump_total st).query_cache
      (trimString (lowerString query)) = none := hlook
  rw [hlook']
  have htier' : tiered_outcome env (bump_total st).mcpClientPresent
      (get_context_aware_query (bump_total st) query) = Except.ok out := htier
  rw [htier']

/-- Claim C10: whenever `process_pricing_query` returns `status = error`
(both tiers exhausted), the query cache, conversation context,
architecture state, baseline costs and scenario history are unchanged; of
the performance counters only `total_queries` changes (by one) — in fact
the timing statistics are also untouched on this path.  The hypothesis
that every cached entry has `status = success` is the invariant the code
maintains (only success results are ever admitted to the cache). -/
theorem claim_C10_error_state_unchanged (env : CallEnv) (st : AgentState)
    (query : String)
    (hwf : ∀ p ∈ st.query_cache, p.2.status = "success")
    (herr : (process_pricing_query env st query).1.status = "error") :
    (process_pricing_query env st query).2.query_cache = st.query_cache ∧
    (process_pricing_query env st query).2.conversation_context =
      st.conversation_context ∧
    (process_pricing_query env st query).2.current_architecture =
      st.current_architecture ∧
    (process_pricing_query env st query).2.baseline_costs = st.baseline_costs ∧
    (process_pricing_query env st query).2.scenario_history =
      st.scenario_history ∧
    (process_pricing_query env st query).2.performance_stats =
      { st.performance_stats with
        total_queries := st.performance_stats.total_queries + 1 } := by
  cases hlook : lookupCache st.query_cache (trimString (lowerString query)) with
  | some cached =>
    exfalso
    rw [process_hit env st query cached hlook] at herr
    dsimp only at herr
    obtain ⟨p, hp, hpr⟩ := lookupCache_mem _ _ _ hlook
    have hps := hwf p hp
    rw [hpr] at hps
    rw [hps] at herr
    exact absurd herr (by decide)
  | none =>
    cases htier : tiered_outcome env st.mcpClientPresent
        (get_context_aware_query (bump_total st) query) with
    | ok out =>
      exfalso
      rw [process_miss_ok env st query out hlook htier] at herr
      have hs : (success_post env (bump_total st) query out).1.status =
          "success" := rfl
      rw [hs] at herr
      exact absurd herr (by decide)
    | error e =>
      rw [process_miss_err env st query e hlook htier]
      exact ⟨rfl, rfl, rfl, rfl, rfl, rfl⟩

/-- Witness for C10: both tiers fail on an empty initial state; the
returned status is an error and the state is untouched apart from the
query counter. -/
theorem claim_C10_error_state_unchanged_witness :
    (process_pricing_query envBothFail {} "cost of t3.small").2.query_cache =
      AgentState.query_cache {} ∧
    (process_pricing_query envBothFail {} "cost of t3.small").2.conversation_context =
      AgentState.conversation_context {} ∧
    (process_pricing_query envBothFail {} "cost of t3.small").2.current_architecture =
      AgentState.current_architecture {} ∧
    (process_pricing_query envBothFail {} "cost of t3.small").2.baseline_costs =
      AgentState.baseline_costs {} ∧
    (process_pricing_query envBothFail {} "cost of t3.small").2.scenario_history =
      AgentState.scenario_history {} ∧
    (process_pricing_query envBothFail {} "cost of t3.small").2.performance_stats =
      { AgentState.performance_stats {} with
        total_queries := (AgentState.performance_stats {}).total_queries + 1 } :=
  claim_C10_error_state_unchanged envBothFail {} "cost of t3.small"
    (by intro p hp; cases hp) (by decide)

/-!  ## Cache behaviour (claims C8 and C9) -/

theorem manage_cache_eq (st : AgentState) (q r : String) (now : ℚ) :
    (manage_conversation_context st q r now).query_cache = st.query_cache := by
  dsimp only [manage_conversation_context]
  split_ifs <;> rfl

theorem add_scenario_cache_eq (st : AgentState) (q r : String)
    (ci : CostInfo) (now : ℚ) :
    (add_scenario_to_history st q r ci now).query_cache = st.query_cache := by
  rfl

/-- The cache after the success path: the new entry is appended exactly
when the cache held fewer than 10 entries; nothing is ever evicted. -/
theorem success_post_cache_eq (env : CallEnv) (st1 : AgentState)
    (query : String) (out : String × Bool × ℕ) :
    (success_post env st1 query out).2.query_cache =
      if st1.query_cache.length < 10 then
        st1.query_cache ++
          [(trimString (lowerString query), (success_post env st1 query out).1)]
      else st1.query_cache := by
  unfold success_post
  dsimp only
  rw [manage_cache_eq]
  dsimp only
  split_ifs <;> simp_all [add_scenario_cache_eq, manage_cache_eq]

set_option maxRecDepth 100000 in
/-- Counterexample to claim C8 as stated: with the cache already at its
10-entry cap, a new successful response is NOT admitted — nothing is
evicted and the new key is absent afterwards, refuting insertion-order
eviction ("caching continues after the cap"). -/
theorem claim_C8_no_eviction_counterexample :
    (process_pricing_query envPlainOk fullCacheState "cost").1.status =
      "success" ∧
    (process_pricing_query envPlainOk fullCacheState "cost").2.query_cache =
      fullCacheState.query_cache ∧
    lookupCache
      (process_pricing_query envPlainOk fullCacheState "cost").2.query_cache
      (trimString (lowerString "cost")) = none :=
  ⟨by decide, by decide, by decide⟩

/-- Claim C8 as amended: the per-instance query cache is bounded at 10
entries, and once full it stops admitting new responses (no eviction at
all: the cache is left exactly as it was). -/
theorem claim_C8_cache_bounded (env : CallEnv) (st : AgentState)
    (query : String) (h : st.query_cache.length ≤ 10) :
    (process_pricing_query env st query).2.query_cache.length ≤ 10 ∧
    (st.query_cache.length = 10 →
      (process_pricing_query env st query).2.query_cache = st.query_cache) := by
  cases hlook : lookupCache st.query_cache (trimString (lowerString query)) with
  | some cached =>
    rw [process_hit env st query cached hlook]
    exact ⟨h, fun _ => rfl⟩
  | none =>
    cases htier : tiered_outcome env st.mcpClientPresent
        (get_context_aware_query (bump_total st) query) with
    | error e =>
      rw [process_miss_err env st query e hlook htier]
      exact ⟨h, fun _ => rfl⟩
    | ok out =>
      rw [process_miss_ok env st query out hlook htier,
        success_post_cache_eq]
      have hb : (bump_total st).query_cache = st.query_cache := rfl
      rw [hb]
      split_ifs with h10
      · refine ⟨?_, ?_⟩
        · rw [List.length_append]
          simp only [List.length_cons, List.length_nil]
          omega
        · intro hfull
          omega
      · exact ⟨h, fun _ => rfl⟩

/-- Witness for the amended C8 at the full cache: the bound holds and the
full cache is returned unchanged. -/
theorem claim_C8_cache_bounded_witness :
    (process_pricing_query envPlainOk fullCacheState "cost").2.query_cache.length ≤ 10 ∧
    (fullCacheState.query_cache.length = 10 →
      (process_pricing_query envPlainOk fullCacheState "cost").2.query_cache =
        fullCacheState.query_cache) :=
  claim_C8_cache_bounded envPlainOk fullCacheState "cost" (by decide)

theorem lookupCache_append_self (l : List (String × PricingResult))
    (k : String) (r : PricingResult) (h : lookupCache l k = none) :
    lookupCache (l ++ [(k, r)]) k = some r := by
  unfold lookupCache at h ⊢
  induction l with
  | nil => simp [List.find?]
  | cons a tl ih =>
    by_cases hk : a.1 = k
    · rw [List.find?_cons_of_pos _ (by simp [hk])] at h
      cases h
    · rw [List.find?_cons_of_neg _ (by simp [hk])] at h
      rw [List.cons_append, List.find?_cons_of_neg _ (by simp [hk])]
      exact ih h

/-- Claim C9: after a successful call whose response was admitted to the
cache (the cache was below its cap), issuing the same query text modulo
case and surrounding whitespace returns `cached = true` and does not
change the `mcp_calls` counter. -/
theorem claim_C9_cache_hit_no_mcp_call (env1 env2 : CallEnv)
    (st : AgentState) (q1 q2 : String)
    (hnorm : trimString (lowerString q2) = trimString (lowerString q1))
    (hlen : st.query_cache.length < 10)
    (hsucc : (process_pricing_query env1 st q1).1.status = "success") :
    (process_pricing_query env2 (process_pricing_query env1 st q1).2 q2).1.cached
      = true ∧
    (process_pricing_query env2
        (process_pricing_query env1 st q1).2 q2).2.performance_stats.mcp_calls
      = (process_pricing_query env1 st q1).2.performance_stats.mcp_calls := by
  cases hlook : lookupCache st.query_cache (trimString (lowerString q1)) with
  | some cached =>
    rw [process_hit env1 st q1 cached hlook]
    have hlook2 : lookupCache
        ({ st with performance_stats :=
          { st.performance_stats with
            total_queries := st.performance_stats.total_queries + 1,
            cache_hits := st.performance_stats.cache_hits + 1 } } :
          AgentState).query_cache (trimString (lowerString q2)) =
        some cached := by
      rw [hnorm]
      exact hlook
    rw [process_hit env2 _ q2 cached hlook2]
    exact ⟨rfl, rfl⟩
  | none =>
    cases htier : tiered_outcome env1 st.mcpClientPresent
        (get_context_aware_query (bump_total st) q1) with
    | error e =>
      exfalso
      rw [process_miss_err env1 st q1 e hlook htier] at hsucc
      dsimp only at hsucc
      exact absurd hsucc (by decide)
    | ok out =>
      rw [process_miss_ok env1 st q1 out hlook htier]
      have hc := success_post_cache_eq env1 (bump_total st) q1 out
      have hb : (bump_total st).query_cache = st.query_cache := rfl
      rw [hb, if_pos hlen] at hc
      have hlook2 : lookupCache
          (success_post env1 (bump_total st) q1 out).2.query_cache
          (trimString (lowerString q2)) =
          some (success_post env1 (bump_total st) q1 out).1 := by
        rw [hnorm, hc]
        exact lookupCache_append_self _ _ _ hlook
      rw [process_hit env2 _ q2 _ hlook2]
      exact ⟨rfl, rfl⟩

/-- Witness for C9: the same query in different case and padding, issued
twice against a fresh state under an always-failing tool tier. -/
theorem claim_C9_cache_hit_no_mcp_call_witness :
    (process_pricing_query envPlainOk
      (process_pricing_query envPlainOk {} "Cost of t3.small").2
      "  cost of T3.SMALL ").1.cached = true ∧
    (process_pricing_query envPlainOk
      (process_pricing_query envPlainOk {} "Cost of t3.small").2
      "  cost of T3.SMALL ").2.performance_stats.mcp_calls =
    (process_pricing_query envPlainOk {} "Cost of t3.small").2.performance_stats.mcp_calls :=
  claim_C9_cache_hit_no_mcp_call envPlainOk envPlainOk {}
    "Cost of t3.small" "  cost of T3.SMALL " (by decide) (by decide)
    (by decide)

/-!  ## Architecture-state evolution (claim C7) -/

/-- The invariant assumed by C10 is maintained by the code itself: every
entry ever admitted to the query cache is a success result. -/
theorem process_preserves_cache_invariant (env : CallEnv) (st : AgentState)
    (query : String)
    (hwf : ∀ p ∈ st.query_cache, p.2.status = "success") :
    ∀ p ∈ (process_pricing_query env st query).2.query_cache,
      p.2.status = "success" := by
  cases hlook : lookupCache st.query_cache (trimString (lowerString query)) with
  | some cached =>
    rw [process_hit env st query cached hlook]
    exact hwf
  | none =>
    cases htier : tiered_outcome env st.mcpClientPresent
        (get_context_aware_query (bump_total st) query) with
    | error e =>
      rw [process_miss_err env st query e hlook htier]
      exact hwf
    | ok out =>
      rw [process_miss_ok env st query out hlook htier]
      intro p hp
      rw [success_post_cache_eq] at hp
      split_ifs at hp
      · rcases List.mem_append.mp hp with hp | hp
        · exact hwf p hp
        · rcases List.mem_singleton.mp hp with rfl
          rfl
      · exact hwf p hp
